import Mathlib

/-!
Verification of the audio-lint tag-transformation engine (src/process.rs).

The development shallowly embeds the final revision of the engine:
the Vorbis comment block is an association list from field keys to lists of
string values, each tag operation is a pure function from a comment block to
an `Except` result carrying the display message and the updated block, and the
per-file `worker` / batch `run` drivers are explicit state-passing functions.
External collaborators (the Unicode NFD normalizer, the titlecase crate, the
Rust `u32` parser and formatter, the `(\d{4})` regex, and the filesystem) are
modelled as Lean functions; each such model carries a doc comment naming what
it models.
-/

deriving instance DecidableEq for Except

namespace AudioLint

/-- An in-memory Vorbis comment block: a finite map from field keys to lists
of string values, modelling `metaflac::block::VorbisComment`'s
`HashMap<String, Vec<String>>`.  It is represented as an association list with
at most one entry per key. -/
structure VorbisComment where
  comments : List (String × List String)
deriving DecidableEq, Repr

/-- Lookup of a key in the underlying association list, modelling
`HashMap::get`. -/
def getPairs (k : String) : List (String × List String) → Option (List String)
  | [] => none
  | (k', v) :: rest => if k' = k then some v else getPairs k rest

/-- Replacement (or insertion) of a binding, modelling `HashMap::insert` as
performed by `VorbisComment::set`. -/
def setPairs (k : String) (v : List String) :
    List (String × List String) → List (String × List String)
  | [] => [(k, v)]
  | (k', v') :: rest => if k' = k then (k, v) :: rest else (k', v') :: setPairs k v rest

/-- Models `VorbisComment::get(key)`. -/
def VorbisComment.get (c : VorbisComment) (k : String) : Option (List String) :=
  getPairs k c.comments

/-- Models `VorbisComment::set(key, values)` (and through it `set_track`,
`set_title`, `set_genre`, which are thin wrappers over `set`). -/
def VorbisComment.set (c : VorbisComment) (k : String) (v : List String) : VorbisComment :=
  ⟨setPairs k v c.comments⟩

/-- Models the pattern `comments.get(KEY)` followed by `.iter().next()`: the
first value stored under a key, or `none` when the key is absent or its value
list is empty. -/
def firstVal (c : VorbisComment) (k : String) : Option String :=
  (c.get k).bind List.head?

/-- The per-operation message type of `process.rs` (`enum Message`). -/
inductive Message
  | Unchanged
  | ActionResult (old new : String)
deriving DecidableEq, Repr

/-- Models `Message::to_string(prefix, file_name, run)`.  The `colored` crate
calls (`normal`, `yellow`, `green`) only attach presentation colour and are
modelled as the identity. -/
def Message.to_string (m : Message) (label : String) (fileName : String)
    (runFlag : Bool) : String :=
  match m, runFlag with
  | .Unchanged, _ => label ++ " (unchanged): " ++ fileName
  | .ActionResult o n, _ => label ++ ": " ++ o ++ " -> " ++ n

/-- The error enum of `process.rs` (`enum Error`). -/
inductive Error
  | FileLoadError (msg : String)
  | TagParseError (msg : String)
  | TagLoadError (msg : String)
deriving DecidableEq, Repr

/-- Models the `fmt::Display` implementation for `Error`. -/
def Error.display : Error → String
  | .FileLoadError m => "Failed to load file: " ++ m
  | .TagParseError m => "Failed to parse: " ++ m
  | .TagLoadError m => "Failed to load tag: " ++ m

/-- A value of Rust's `Box<dyn error::Error>` as it flows through the engine:
either the engine's own `Error`, a `ParseIntError` from `str::parse::<u32>`,
or an error raised by `metaflac::Tag::read_from_path` (carried as its display
string). -/
inductive DynError
  | app (e : Error)
  | parseInt (msg : String)
  | tagRead (msg : String)
deriving DecidableEq, Repr

/-- Models `err.to_string()` on the boxed error. -/
def DynError.toDisplay : DynError → String
  | .app e => e.display
  | .parseInt m => m
  | .tagRead m => m

/-- Value of a decimal digit character. -/
def digitVal (c : Char) : Nat := c.toNat - 48

/-- Value of a list of decimal digit characters read most-significant first. -/
def digitsVal (cs : List Char) : Nat :=
  cs.foldl (fun a c => a * 10 + digitVal c) 0

/-- Models Rust's `str::parse::<u32>`: an optional single leading `+` sign,
then one or more ASCII digits, with the value required to fit in 32 bits.  No
whitespace is stripped.  The error strings are the `ParseIntError` display
texts. -/
def rustParseU32 (s : String) : Except String Nat :=
  match s.data with
  | [] => .error "cannot parse integer from empty string"
  | c :: cs =>
    let ds := if c = '+' then cs else c :: cs
    if ds = [] then .error "invalid digit found in string"
    else if ds.all Char.isDigit then
      if digitsVal ds < 4294967296 then .ok (digitsVal ds)
      else .error "number too large to fit in target type"
    else .error "invalid digit found in string"

/-- The decimal digit character for `d < 10`. -/
def toDigitChar (d : Nat) : Char :=
  if d = 0 then '0' else if d = 1 then '1' else if d = 2 then '2'
  else if d = 3 then '3' else if d = 4 then '4' else if d = 5 then '5'
  else if d = 6 then '6' else if d = 7 then '7' else if d = 8 then '8' else '9'

/-- Fuelled digit expansion of a natural number, most-significant digit
first.  The fuel is only a termination device; `natRepr` always supplies
enough. -/
def natReprAux : Nat → Nat → List Char
  | 0, _ => []
  | fuel + 1, n =>
    if n < 10 then [toDigitChar n]
    else natReprAux fuel (n / 10) ++ [toDigitChar (n % 10)]

/-- Models Rust's `u32::to_string()`: the canonical decimal representation
with no sign, no leading zeros and no whitespace. -/
def natRepr (n : Nat) : String := String.mk (natReprAux (n + 1) n)

/-- Modelled from the spec: canonical decomposed Unicode normal form (NFD) as
provided by the external `unic_normal` collaborator, restricted to a
representative table of precomposed Latin letters; every character outside the
table decomposes to itself.  Equality of `nfd` images models
`a.nfd().eq(b.nfd())`. -/
def nfdChar (c : Char) : List Char :=
  if c = 'é' then ['e', '\u0301']
  else if c = 'è' then ['e', '\u0300']
  else if c = 'ê' then ['e', '\u0302']
  else if c = 'á' then ['a', '\u0301']
  else if c = 'à' then ['a', '\u0300']
  else if c = 'ô' then ['o', '\u0302']
  else if c = 'ü' then ['u', '\u0308']
  else [c]

/-- Modelled from the spec: NFD normalization of a string. -/
def nfd (s : String) : String := String.mk (s.data.flatMap nfdChar)

/-- Splits a character list into maximal whitespace-free words, dropping all
whitespace. -/
def splitWordsAux : List Char → List Char → List (List Char)
  | [], acc => if acc = [] then [] else [acc.reverse]
  | c :: rest, acc =>
    if c.isWhitespace then
      if acc = [] then splitWordsAux rest []
      else acc.reverse :: splitWordsAux rest []
    else splitWordsAux rest (c :: acc)

/-- Uppercases the first character of a word. -/
def capitalize : List Char → List Char
  | [] => []
  | c :: rest => c.toUpper :: rest

/-- Modelled from the spec: the external `titlecase` collaborator applies
title-casing to the trimmed input and collapses every run of two or more
whitespace characters into a single space.  Title-casing is modelled as
uppercasing the first character of every whitespace-separated word. -/
def titlecase (s : String) : String :=
  String.intercalate " " ((splitWordsAux s.data []).map (fun w => String.mk (capitalize w)))

/-- Leftmost match of the regex `(\d{4})`: the first position at which four
consecutive ASCII digits occur, returning those four digits. -/
def fourDigitsAt (cs : List Char) : Option (List Char) :=
  match cs with
  | a :: b :: c :: d :: _ =>
    if a.isDigit && b.isDigit && c.isDigit && d.isDigit then some [a, b, c, d] else none
  | _ => none

/-- Models `Regex::new(r"(\d{4})").captures(s)`: scans left to right for the
first four consecutive digits. -/
def findFourDigits : List Char → Option (List Char)
  | [] => none
  | c :: rest =>
    match fourDigitsAt (c :: rest) with
    | some r => some r
    | none => findFourDigits rest

/-- Models `normalize_tracknumber` of `process.rs`: parses the first
`TRACKNUMBER` value as a `u32`, reports `Unchanged` when the old string equals
the canonical decimal form, and otherwise sets the field to the canonical form
and reports the change. -/
def normalize_tracknumber (c : VorbisComment) : Except DynError (Message × VorbisComment) :=
  match firstVal c "TRACKNUMBER" with
  | none => .error (.app (.TagLoadError "load tracknumber"))
  | some old =>
    match rustParseU32 old with
    | .error m => .error (.parseInt m)
    | .ok n =>
      if old = natRepr n then .ok (.Unchanged, c)
      else .ok (.ActionResult old (natRepr n), c.set "TRACKNUMBER" [natRepr n])

/-- Models `normalize_title` of `process.rs`: title-cases the first `TITLE`
value, compares old and new under NFD, and mutates only on change. -/
def normalize_title (c : VorbisComment) : Except DynError (Message × VorbisComment) :=
  match firstVal c "TITLE" with
  | none => .error (.app (.TagLoadError "load title"))
  | some old =>
    let newTitle := titlecase old
    if nfd old = nfd newTitle then .ok (.Unchanged, c)
    else .ok (.ActionResult old newTitle, c.set "TITLE" [newTitle])

/-- Models `normalize_year` of `process.rs`: extracts the first four
consecutive digits of the first `DATE` value, fails with
`TagParseError("parse into new date")` when there is no match, and compares
old and new by exact string equality.  The `map_or` fallback to `old` in the
source is unreachable because group 1 is the whole match. -/
def normalize_year (c : VorbisComment) : Except DynError (Message × VorbisComment) :=
  match firstVal c "DATE" with
  | none => .error (.app (.TagLoadError "load date"))
  | some old =>
    match findFourDigits old.data with
    | none => .error (.app (.TagParseError "parse into new date"))
    | some ds =>
      let newDate := String.mk ds
      if old = newDate then .ok (.Unchanged, c)
      else .ok (.ActionResult old newDate, c.set "DATE" [newDate])

/-- Models `set_genre` of `process.rs`. -/
def set_genre (genre : String) (c : VorbisComment) : Except DynError (Message × VorbisComment) :=
  match firstVal c "GENRE" with
  | none => .error (.app (.TagLoadError "load genre"))
  | some old =>
    if old = genre then .ok (.Unchanged, c)
    else .ok (.ActionResult old genre, c.set "GENRE" [genre])

/-- Models `map_or(false, |s| !s.is_empty())` applied to the first value of a
field. -/
def hasNonEmptyFirst (c : VorbisComment) (k : String) : Bool :=
  match firstVal c k with
  | none => false
  | some s => !(s == "")

/-- Models `clean_others` of `process.rs`: when either `COMMENT` or `LYRICS`
has a non-empty first value, both fields are set to the single empty-string
value (the keys are kept, and created when absent); otherwise nothing is
touched. -/
def clean_others (c : VorbisComment) : Except DynError (Message × VorbisComment) :=
  let has_comment := hasNonEmptyFirst c "COMMENT"
  let has_lyrics := hasNonEmptyFirst c "LYRICS"
  if !has_lyrics && !has_comment then .ok (.Unchanged, c)
  else .ok (.ActionResult "" "Took out the string",
            (c.set "COMMENT" [""]).set "LYRICS" [""])

/-- Models `set_year` of `process.rs`. -/
def set_year (year : Nat) (c : VorbisComment) : Except DynError (Message × VorbisComment) :=
  match firstVal c "DATE" with
  | none => .error (.app (.TagLoadError "load date"))
  | some old =>
    if old = natRepr year then .ok (.Unchanged, c)
    else .ok (.ActionResult old (natRepr year), c.set "DATE" [natRepr year])

/-- A filesystem path as used by the engine: a parent directory (a list of
components) and a file name.  The source's `file_name()`, `extension()` and
`parent()` accessors are modelled on this structure; the `to_str` and
`parent` failure branches of the source (raised only for non-UTF-8 or
component-free paths) are outside the model. -/
structure RPath where
  parent : List String
  fileName : String
deriving DecidableEq, Repr

/-- Models Rust's `Path::extension()`: the portion of the file name after the
final dot, or `none` when there is no dot or the only dot is the leading
character. -/
def rustExtension (name : String) : Option String :=
  let rev := name.data.reverse
  let afterRev := rev.takeWhile (fun c => c ≠ '.')
  match rev.drop afterRev.length with
  | [] => none
  | _ :: beforeRev =>
    if beforeRev = [] then none else some (String.mk afterRev.reverse)

/-- Models the format specifier `{:0>2}` applied to a string: pad on the left
with `0` up to width two. -/
def padLeft2 (s : String) : String :=
  if s.length ≥ 2 then s else String.mk (List.replicate (2 - s.length) '0' ++ s.data)

/-- Models `title.replace(":", " ").replace("/", " ")`: both patterns and the
replacement are single characters, so the two sequential replacements equal
one character map. -/
def sanitize_title (t : String) : String :=
  String.mk (t.data.map (fun c => if c = ':' ∨ c = '/' then ' ' else c))

/-- Result of the `rename` operation.  Besides the message or error of the
source function it records the filesystem effect: `none` when no rename was
issued, or the old and new path when `fs::rename` was called and succeeded.
The source calls `.unwrap()` on the `fs::rename` result, so a failing rename
is a `panicked` outcome, not an error value. -/
inductive RenameOut
  | err (e : DynError)
  | panicked
  | ok (m : Message) (fsEffect : Option (RPath × RPath))
deriving DecidableEq, Repr

/-- Models `rename` of `process.rs`.  The `fsRenameOk` parameter is the
filesystem collaborator's verdict on the `fs::rename` call: when it is
`false` and the code reaches `fs::rename(..).unwrap()`, the process panics. -/
def rename (path : RPath) (c : VorbisComment) (runFlag : Bool) (fsRenameOk : Bool) :
    RenameOut :=
  let old_name := path.fileName
  match rustExtension path.fileName with
  | none => .err (.app (.FileLoadError "file extension not present"))
  | some ext =>
    match firstVal c "TRACKNUMBER" with
    | none => .err (.app (.TagLoadError "can't load tracknumber"))
    | some tracknumber =>
      match firstVal c "TITLE" with
      | none => .err (.app (.TagLoadError "can't load title"))
      | some title =>
        let new_name := padLeft2 tracknumber ++ " - " ++ sanitize_title title ++ "." ++ ext
        if nfd old_name = nfd new_name then .ok .Unchanged none
        else if runFlag then
          if fsRenameOk then
            .ok (.ActionResult old_name new_name)
               (some (path, ⟨path.parent, new_name⟩))
          else .panicked
        else .ok (.ActionResult old_name new_name) none

/-- The per-run configuration, mirroring `parser::Args`. -/
structure Args where
  run : Bool
  quiet : Bool
  path : String
  normalize_tracknumber : Bool
  normalize_title : Bool
  normalize_year : Bool
  rename : Bool
  clean_others : Bool
  set_genre : Bool
  set_year : Bool
  genre : String
  year : Nat
deriving DecidableEq, Repr

/-- One enabled-operation step of `worker`: when `enabled` is set, the
operation runs on the current comment block; an error aborts the whole file
(the source applies `?`), and a success appends the rendered message, adopts
the updated block, and sets the `tag_modified` flag.  The state triple is
(messages, comment block, tag_modified). -/
def opStep (enabled : Bool) (label : String)
    (op : VorbisComment → Except DynError (Message × VorbisComment))
    (fileName : String) (runFlag : Bool)
    (st : List String × VorbisComment × Bool) :
    Except DynError (List String × VorbisComment × Bool) :=
  match enabled with
  | false => .ok st
  | true =>
    match op st.2.1 with
    | .error e => .error e
    | .ok (m, c') => .ok (st.1 ++ [m.to_string label fileName runFlag], c', true)

/-- The six non-rename operations of `worker`, in source order. -/
def stagedOps (args : Args) (fileName : String) (c0 : VorbisComment) :
    Except DynError (List String × VorbisComment × Bool) :=
  (opStep args.normalize_tracknumber "Norm. num" normalize_tracknumber fileName args.run
      ([], c0, false)).bind fun s1 =>
  (opStep args.normalize_title "Norm. title" normalize_title fileName args.run s1).bind fun s2 =>
  (opStep args.normalize_year "Norm. year" normalize_year fileName args.run s2).bind fun s3 =>
  (opStep args.set_genre "Set genre" (set_genre args.genre) fileName args.run s3).bind fun s4 =>
  (opStep args.clean_others "Remove. junk" clean_others fileName args.run s4).bind fun s5 =>
  opStep args.set_year "Set year" (set_year args.year) fileName args.run s5

/-- The successful outcome of `worker`: the message block, the final in-memory
comment block, whether `tag.save()` was invoked (`run && tag_modified`), and
the filesystem rename that was performed, if any. -/
structure WorkerOk where
  messages : List String
  tag : VorbisComment
  saved : Bool
  fsEffect : Option (RPath × RPath)
deriving DecidableEq, Repr

/-- Outcome of `worker`: success, an error propagated by `?`, or a process
panic (from `fs::rename(..).unwrap()`). -/
inductive WorkerOut
  | ok (r : WorkerOk)
  | err (e : DynError)
  | panicked
deriving DecidableEq, Repr

/-- Models `worker` of `process.rs` for one directory entry.  `tagRead` is the
outcome of the external `metaflac::Tag::read_from_path` call (its error
display string on failure); `fsRenameOk` is the filesystem's verdict on a
`fs::rename`, if one is attempted.  The spinner update is presentation only
and outside the model.  Note that `tag_modified` is set by every enabled
non-rename operation that succeeds, whether or not it changed anything, and
that any operation error aborts the remaining operations of the file. -/
def worker (args : Args) (path : RPath) (tagRead : Except String VorbisComment)
    (fsRenameOk : Bool) : WorkerOut :=
  match tagRead with
  | .error e => .err (.tagRead e)
  | .ok c0 =>
    match stagedOps args path.fileName c0 with
    | .error e => .err e
    | .ok (msgs, c1, tag_modified) =>
      if args.rename then
        match rename path c1 args.run fsRenameOk with
        | .err e => .err e
        | .panicked => .panicked
        | .ok m fsEffect =>
          .ok ⟨msgs ++ [m.to_string "Rename" path.fileName args.run], c1,
               args.run && tag_modified, fsEffect⟩
      else .ok ⟨msgs, c1, args.run && tag_modified, none⟩

/-- Result of the batch driver: the collected per-file message blocks, or a
process panic propagated out of a worker. -/
inductive BatchOut
  | panicked
  | ok (messages : List String)
deriving DecidableEq, Repr

/-- Prepends a message block to a batch result. -/
def consBatch (m : String) : BatchOut → BatchOut
  | .panicked => .panicked
  | .ok msgs => .ok (m :: msgs)

/-- Models `run` of `process.rs` over the externally discovered entries.  Each
entry pairs a path with the outcome of reading its tag.  Every worker success
contributes its messages joined by newlines, every worker error contributes
the error display string (reddened in the source, modelled as the identity)
as the single message for that file, and a worker panic aborts the run.  The
source processes entries in concurrent chunks of ten; the collected message
multiset is order-insensitive there and is modelled in entry order. -/
def run (args : Args) (fsRenameOk : Bool) :
    List (RPath × Except String VorbisComment) → BatchOut
  | [] => .ok []
  | (p, tr) :: rest =>
    match worker args p tr fsRenameOk with
    | .panicked => .panicked
    | .ok r => consBatch (String.intercalate "\n" r.messages) (run args fsRenameOk rest)
    | .err e => consBatch e.toDisplay (run args fsRenameOk rest)

/-- The message block contributed by one entry when no worker panics:
the joined messages on success, the error display on failure. -/
def entryMsg (args : Args) (fsRenameOk : Bool)
    (e : RPath × Except String VorbisComment) : String :=
  match worker args e.1 e.2 fsRenameOk with
  | .ok r => String.intercalate "\n" r.messages
  | .err w => w.toDisplay
  | .panicked => ""

/-- Substring test used to state facts about message contents. -/
def listStartsWith : List Char → List Char → Bool
  | _, [] => true
  | [], _ :: _ => false
  | h :: hs, n :: ns => h = n && listStartsWith hs ns

/-- Substring occurrence test on character lists. -/
def listContainsSub : List Char → List Char → Bool
  | [], needle => needle.isEmpty
  | h :: hs, needle => listStartsWith (h :: hs) needle || listContainsSub hs needle

/-- Whether `needle` occurs as a contiguous substring of `hay`. -/
def strContains (hay needle : String) : Bool :=
  listContainsSub hay.data needle.data

theorem getPairs_setPairs_self (k : String) (v : List String)
    (l : List (String × List String)) : getPairs k (setPairs k v l) = some v := by
  induction l with
  | nil => simp [getPairs, setPairs]
  | cons hd tl ih =>
    obtain ⟨a, b⟩ := hd
    by_cases ha : a = k <;> simp [getPairs, setPairs, ha, ih]

theorem getPairs_setPairs_other (k k' : String) (v : List String)
    (l : List (String × List String)) (h : k' ≠ k) :
    getPairs k' (setPairs k v l) = getPairs k' l := by
  induction l with
  | nil => simp [getPairs, setPairs, Ne.symm h]
  | cons hd tl ih =>
    obtain ⟨a, b⟩ := hd
    by_cases ha : a = k
    · subst ha
      simp [getPairs, setPairs, Ne.symm h]
    · simp [getPairs, setPairs, ha, ih]

theorem get_set_self (c : VorbisComment) (k : String) (v : List String) :
    (c.set k v).get k = some v :=
  getPairs_setPairs_self k v c.comments

theorem get_set_other (c : VorbisComment) (k k' : String) (v : List String) (h : k' ≠ k) :
    (c.set k v).get k' = c.get k' :=
  getPairs_setPairs_other k k' v c.comments h

theorem digitVal_toDigitChar {d : Nat} (h : d < 10) : digitVal (toDigitChar d) = d := by
  interval_cases d <;> rfl

theorem isDigit_toDigitChar {d : Nat} (h : d < 10) : (toDigitChar d).isDigit = true := by
  interval_cases d <;> rfl

theorem digitsVal_append_singleton (cs : List Char) (c : Char) :
    digitsVal (cs ++ [c]) = digitsVal cs * 10 + digitVal c := by
  simp [digitsVal, List.foldl_append]

theorem natReprAux_spec :
    ∀ fuel n, n < fuel →
      natReprAux fuel n ≠ [] ∧ (natReprAux fuel n).all Char.isDigit = true ∧
      digitsVal (natReprAux fuel n) = n := by
  intro fuel
  induction fuel with
  | zero => intro n h; omega
  | succ f ih =>
    intro n h
    by_cases h10 : n < 10
    · refine ⟨by simp [natReprAux, h10], ?_, ?_⟩
      · simp [natReprAux, h10, isDigit_toDigitChar h10]
      · simp [natReprAux, h10, digitsVal, digitVal_toDigitChar h10]
    · have hlt : n / 10 < f := by
        have h1 : n / 10 < n := Nat.div_lt_self (by omega) (by omega)
        omega
      obtain ⟨hne, hall, hval⟩ := ih (n / 10) hlt
      have hstep : natReprAux (f + 1) n = natReprAux f (n / 10) ++ [toDigitChar (n % 10)] := by
        simp [natReprAux, h10]
      have hm : n % 10 < 10 := Nat.mod_lt n (by omega)
      refine ⟨by simp [hstep], ?_, ?_⟩
      · simp [hstep, List.all_append, hall, isDigit_toDigitChar hm]
      · rw [hstep, digitsVal_append_singleton, hval, digitVal_toDigitChar hm]
        omega

theorem plus_not_digit : ('+').isDigit = false := rfl

theorem rustParseU32_natRepr {n : Nat} (h : n < 4294967296) :
    rustParseU32 (natRepr n) = .ok n := by
  obtain ⟨hne, hall, hval⟩ := natReprAux_spec (n + 1) n (Nat.lt_succ_self n)
  cases hcs : natReprAux (n + 1) n with
  | nil => exact absurd hcs hne
  | cons c cs =>
    rw [hcs] at hall hval
    have hcd : c.isDigit = true := by
      simp [List.all_cons] at hall
      exact hall.1
    have hcplus : ¬(c = '+') := by
      intro hc
      rw [hc] at hcd
      simp [plus_not_digit] at hcd
    show rustParseU32 (String.mk (natReprAux (n + 1) n)) = .ok n
    rw [hcs]
    simp only [rustParseU32, hcplus, if_false, hall]
    simp [hval, h, hcplus]

theorem rustParseU32_lt {s : String} {n : Nat} (h : rustParseU32 s = .ok n) :
    n < 4294967296 := by
  unfold rustParseU32 at h
  cases hcs : s.data with
  | nil => rw [hcs] at h; simp at h
  | cons c cs =>
    rw [hcs] at h
    dsimp only at h
    split_ifs at h with h1 h2 h3 <;> simp_all

theorem opStep_ok_modified {enabled : Bool} {label : String}
    {op : VorbisComment → Except DynError (Message × VorbisComment)}
    {fileName : String} {runFlag : Bool}
    {st st' : List String × VorbisComment × Bool}
    (h : opStep enabled label op fileName runFlag st = .ok st') :
    st'.2.2 = (st.2.2 || enabled) := by
  cases enabled with
  | false =>
    simp [opStep] at h
    simp [← h]
  | true =>
    cases hop : op st.2.1 with
    | error e => simp [opStep, hop] at h
    | ok pr =>
      obtain ⟨m, c'⟩ := pr
      simp [opStep, hop] at h
      simp [← h]

theorem stagedOps_ok_modified {args : Args} {fn : String} {c0 : VorbisComment}
    {out : List String × VorbisComment × Bool}
    (h : stagedOps args fn c0 = .ok out) :
    out.2.2 = (args.normalize_tracknumber || args.normalize_title || args.normalize_year ||
               args.set_genre || args.clean_others || args.set_year) := by
  unfold stagedOps at h
  cases h1 : opStep args.normalize_tracknumber "Norm. num" normalize_tracknumber fn args.run
      ([], c0, false) with
  | error e => rw [h1] at h; simp [Except.bind] at h
  | ok s1 =>
  rw [h1] at h; simp only [Except.bind] at h
  cases h2 : opStep args.normalize_title "Norm. title" normalize_title fn args.run s1 with
  | error e => rw [h2] at h; simp [Except.bind] at h
  | ok s2 =>
  rw [h2] at h; simp only [Except.bind] at h
  cases h3 : opStep args.normalize_year "Norm. year" normalize_year fn args.run s2 with
  | error e => rw [h3] at h; simp [Except.bind] at h
  | ok s3 =>
  rw [h3] at h; simp only [Except.bind] at h
  cases h4 : opStep args.set_genre "Set genre" (set_genre args.genre) fn args.run s3 with
  | error e => rw [h4] at h; simp [Except.bind] at h
  | ok s4 =>
  rw [h4] at h; simp only [Except.bind] at h
  cases h5 : opStep args.clean_others "Remove. junk" clean_others fn args.run s4 with
  | error e => rw [h5] at h; simp [Except.bind] at h
  | ok s5 =>
  rw [h5] at h; simp only [Except.bind] at h
  have e1 := opStep_ok_modified h1
  have e2 := opStep_ok_modified h2
  have e3 := opStep_ok_modified h3
  have e4 := opStep_ok_modified h4
  have e5 := opStep_ok_modified h5
  have e6 := opStep_ok_modified h
  rw [e6, e5, e4, e3, e2, e1]
  simp [Bool.or_assoc]

theorem hasNonEmptyFirst_true {c : VorbisComment} {k : String}
    (h : hasNonEmptyFirst c k = true) :
    ∃ s, firstVal c k = some s ∧ s ≠ "" := by
  unfold hasNonEmptyFirst at h
  cases hf : firstVal c k with
  | none => rw [hf] at h; simp at h
  | some s =>
    rw [hf] at h
    simp at h
    exact ⟨s, rfl, h⟩

theorem hasNonEmptyFirst_of_firstVal {c : VorbisComment} {k : String} {s : String}
    (hf : firstVal c k = some s) (hs : s ≠ "") : hasNonEmptyFirst c k = true := by
  unfold hasNonEmptyFirst
  rw [hf]
  simp [hs]

theorem clean_others_unchanged {c : VorbisComment}
    (h : (!hasNonEmptyFirst c "LYRICS" && !hasNonEmptyFirst c "COMMENT") = true) :
    clean_others c = .ok (.Unchanged, c) := by
  unfold clean_others
  dsimp only
  rw [h]
  rfl

theorem clean_others_changed {c : VorbisComment}
    (h : (!hasNonEmptyFirst c "LYRICS" && !hasNonEmptyFirst c "COMMENT") = false) :
    clean_others c = .ok (.ActionResult "" "Took out the string",
      (c.set "COMMENT" [""]).set "LYRICS" [""]) := by
  unfold clean_others
  dsimp only
  rw [h]
  rfl

theorem clean_others_result_get_comment (c : VorbisComment) :
    ((c.set "COMMENT" [""]).set "LYRICS" [""]).get "COMMENT" = some [""] := by
  rw [get_set_other _ _ _ _ (by decide), get_set_self]

theorem clean_others_result_get_lyrics (c : VorbisComment) :
    ((c.set "COMMENT" [""]).set "LYRICS" [""]).get "LYRICS" = some [""] :=
  get_set_self _ _ _

theorem firstVal_get_some {c : VorbisComment} {k s : String}
    (h : firstVal c k = some s) :
    ∃ vs, c.get k = some vs ∧ vs.head? = some s := by
  unfold firstVal at h
  cases hg : c.get k with
  | none => rw [hg] at h; simp at h
  | some vs =>
    rw [hg] at h
    simp at h
    exact ⟨vs, rfl, h⟩

/-- C3: for every tag whose `TITLE` field has a first value, the
title-normalization strategy produces the title-casing of the trimmed input
with every whitespace run collapsed to one space (the `titlecase` model), and
it reports `Unchanged` exactly when the old and new values are equal under
canonical decomposed Unicode normal form; on change the field is set to the
new value. -/
theorem C3_title_normalization (c : VorbisComment) (old : String)
    (h : firstVal c "TITLE" = some old) :
    (nfd old = nfd (titlecase old) → normalize_title c = .ok (.Unchanged, c)) ∧
    (nfd old ≠ nfd (titlecase old) →
      normalize_title c =
        .ok (.ActionResult old (titlecase old), c.set "TITLE" [titlecase old])) := by
  constructor
  · intro hx
    unfold normalize_title
    rw [h]
    dsimp only
    rw [if_pos hx]
  · intro hx
    unfold normalize_title
    rw [h]
    dsimp only
    rw [if_neg hx]

/-- Witness for C3 on a concrete tag: the title `"the  bends "` is trimmed,
collapsed and title-cased to `"The Bends"`, and the change is reported with
the field mutated. -/
theorem C3_witness :
    normalize_title ⟨[("TITLE", ["the  bends "])]⟩ =
      .ok (.ActionResult "the  bends " (titlecase "the  bends "),
           VorbisComment.set ⟨[("TITLE", ["the  bends "])]⟩ "TITLE" [titlecase "the  bends "]) :=
  (C3_title_normalization ⟨[("TITLE", ["the  bends "])]⟩ "the  bends " rfl).2 (by decide)

/-- C5: for every tag whose `DATE` field has a first value, the
year-normalization strategy extracts the first four consecutive digits (the
`(\d{4})` pattern match); when no such run is present it fails with the
no-year-found error `TagParseError("parse into new date")` (this is the
policy the code fixes), and `Unchanged` is decided by exact string equality
of old and new. -/
theorem C5_year_normalization (c : VorbisComment) (old : String)
    (h : firstVal c "DATE" = some old) :
    (findFourDigits old.data = none →
       normalize_year c = .error (.app (.TagParseError "parse into new date"))) ∧
    (∀ ds, findFourDigits old.data = some ds →
       normalize_year c =
         if old = String.mk ds then .ok (.Unchanged, c)
         else .ok (.ActionResult old (String.mk ds), c.set "DATE" [String.mk ds])) := by
  constructor
  · intro hx
    unfold normalize_year
    rw [h]
    dsimp only
    rw [hx]
  · intro ds hx
    unfold normalize_year
    rw [h]
    dsimp only
    rw [hx]

/-- Witness for C5 on the spec's example: `"Copyright 1998 Some Label"`
yields `"1998"` and the change is recorded in the `DATE` field. -/
theorem C5_witness :
    normalize_year ⟨[("DATE", ["Copyright 1998 Some Label"])]⟩ =
      .ok (.ActionResult "Copyright 1998 Some Label" "1998",
           VorbisComment.set ⟨[("DATE", ["Copyright 1998 Some Label"])]⟩ "DATE" ["1998"]) := by
  have h := (C5_year_normalization ⟨[("DATE", ["Copyright 1998 Some Label"])]⟩
      "Copyright 1998 Some Label" rfl).2 ['1', '9', '9', '8'] rfl
  rw [h]
  rfl

/-- C6 counterexample: the claim says the parse strips whitespace, but Rust's
`str::parse::<u32>` does not: on the old value `" 7"` the code fails with a
parse error even though the whitespace-stripped string `"7"` parses to 7. -/
theorem C6_counterexample :
    normalize_tracknumber ⟨[("TRACKNUMBER", [" 7"])]⟩ =
      .error (.parseInt "invalid digit found in string") ∧
    rustParseU32 "7" = .ok 7 := by
  constructor <;> rfl

/-- C6 amended: the track-number strategy parses the old value with Rust
`u32` semantics (an optional leading plus sign and then only digits, no
whitespace stripping, value below 2^32); leading zeros are accepted and the
produced value is the canonical decimal string of the parsed integer, so the
transform is idempotent (its output reparses to the same integer); a failed
parse yields the `ParseIntError`; `Unchanged` is decided by exact string
equality of the old value and the canonical string. -/
theorem C6_number_normalization (c : VorbisComment) (old : String)
    (h : firstVal c "TRACKNUMBER" = some old) :
    (∀ n, rustParseU32 old = .ok n →
       (normalize_tracknumber c =
          if old = natRepr n then .ok (.Unchanged, c)
          else .ok (.ActionResult old (natRepr n), c.set "TRACKNUMBER" [natRepr n])) ∧
       rustParseU32 (natRepr n) = .ok n) ∧
    (∀ m, rustParseU32 old = .error m →
       normalize_tracknumber c = .error (.parseInt m)) := by
  constructor
  · intro n hn
    refine ⟨?_, rustParseU32_natRepr (rustParseU32_lt hn)⟩
    unfold normalize_tracknumber
    rw [h]
    dsimp only
    rw [hn]
  · intro m hm
    unfold normalize_tracknumber
    rw [h]
    dsimp only
    rw [hm]

/-- Witness for C6 amended: `"007"` parses to 7, is rewritten to `"7"`, and
the canonical string reparses to 7. -/
theorem C6_witness :
    (normalize_tracknumber ⟨[("TRACKNUMBER", ["007"])]⟩ =
       if "007" = natRepr 7 then .ok (.Unchanged, ⟨[("TRACKNUMBER", ["007"])]⟩)
       else .ok (.ActionResult "007" (natRepr 7),
                 VorbisComment.set ⟨[("TRACKNUMBER", ["007"])]⟩ "TRACKNUMBER" [natRepr 7])) ∧
    rustParseU32 (natRepr 7) = .ok 7 :=
  (C6_number_normalization ⟨[("TRACKNUMBER", ["007"])]⟩ "007" rfl).1 7 rfl

/-- C7: for every path with an extension and a tag carrying first values for
`TRACKNUMBER` and `TITLE`, the renamer builds the candidate name by
zero-padding the track string to width two, appending `" - "`, the title with
`:` and `/` replaced by spaces, a dot and the extension; it returns
`Unchanged` exactly when the candidate equals the current name under NFD, and
in preview mode (`run = false`) it reports the change without any filesystem
effect.  The concrete conjunct checks the spec's example candidate. -/
theorem C7_rename_candidate (p : RPath) (c : VorbisComment)
    (track title ext : String)
    (he : rustExtension p.fileName = some ext)
    (ht : firstVal c "TRACKNUMBER" = some track)
    (hi : firstVal c "TITLE" = some title) (fsOk : Bool) :
    (nfd p.fileName = nfd (padLeft2 track ++ " - " ++ sanitize_title title ++ "." ++ ext) →
       ∀ runFlag, rename p c runFlag fsOk = .ok .Unchanged none) ∧
    (nfd p.fileName ≠ nfd (padLeft2 track ++ " - " ++ sanitize_title title ++ "." ++ ext) →
       rename p c false fsOk =
         .ok (.ActionResult p.fileName
              (padLeft2 track ++ " - " ++ sanitize_title title ++ "." ++ ext)) none) ∧
    padLeft2 "3" ++ " - " ++ sanitize_title "Paranoid:Android/Test" ++ "." ++ "flac"
      = "03 - Paranoid Android Test.flac" := by
  refine ⟨?_, ?_, by decide⟩
  · intro hx runFlag
    unfold rename
    rw [he, ht, hi]
    dsimp only
    rw [if_pos hx]
  · intro hx
    unfold rename
    rw [he, ht, hi]
    dsimp only
    rw [if_neg hx]
    rfl

/-- Witness for C7: track `"3"` and title `"Paranoid:Android/Test"` on file
`"old.flac"` produce the candidate `"03 - Paranoid Android Test.flac"` in
preview mode with no filesystem effect. -/
theorem C7_witness :
    rename ⟨["d"], "old.flac"⟩ ⟨[("TRACKNUMBER", ["3"]), ("TITLE", ["Paranoid:Android/Test"])]⟩
        false true =
      .ok (.ActionResult "old.flac"
           (padLeft2 "3" ++ " - " ++ sanitize_title "Paranoid:Android/Test" ++ "." ++ "flac"))
         none :=
  (C7_rename_candidate ⟨["d"], "old.flac"⟩
      ⟨[("TRACKNUMBER", ["3"]), ("TITLE", ["Paranoid:Android/Test"])]⟩
      "3" "Paranoid:Android/Test" "flac" rfl rfl rfl true).2.1 (by decide)

/-- C4 counterexample: clearing the populated `COMMENT` field does not remove
the key (it remains present with the single empty-string value, and `LYRICS`
is created as well), and the reported change carries `old = ""` rather than
the removed value `"some text"`. -/
theorem C4_counterexample :
    clean_others ⟨[("COMMENT", ["some text"])]⟩ =
      .ok (.ActionResult "" "Took out the string",
           ⟨[("COMMENT", [""]), ("LYRICS", [""])]⟩) ∧
    VorbisComment.get ⟨[("COMMENT", [""]), ("LYRICS", [""])]⟩ "COMMENT" = some [""] ∧
    VorbisComment.get ⟨[("COMMENT", [""]), ("LYRICS", [""])]⟩ "LYRICS" = some [""] :=
  ⟨rfl, rfl, rfl⟩

/-- C4 amended: the erase operation reports a change iff `COMMENT` or
`LYRICS` holds a non-empty first value (clearing already-empty fields is
`Unchanged`); on change it does not remove the keys but overwrites both
fields with the single empty-string value, and the reported message carries
`old = ""` and `new = "Took out the string"`, not the removed value. -/
theorem C4_erase_semantics (c : VorbisComment) :
    ((∀ s, firstVal c "COMMENT" = some s → s = "") →
     (∀ s, firstVal c "LYRICS" = some s → s = "") →
     clean_others c = .ok (.Unchanged, c)) ∧
    (∀ s, (firstVal c "COMMENT" = some s ∨ firstVal c "LYRICS" = some s) → s ≠ "" →
       clean_others c = .ok (.ActionResult "" "Took out the string",
         (c.set "COMMENT" [""]).set "LYRICS" [""]) ∧
       ((c.set "COMMENT" [""]).set "LYRICS" [""]).get "COMMENT" = some [""] ∧
       ((c.set "COMMENT" [""]).set "LYRICS" [""]).get "LYRICS" = some [""]) := by
  constructor
  · intro hc hl
    apply clean_others_unchanged
    have h1 : hasNonEmptyFirst c "COMMENT" = false := by
      unfold hasNonEmptyFirst
      cases hf : firstVal c "COMMENT" with
      | none => rfl
      | some s => simp [hc s hf]
    have h2 : hasNonEmptyFirst c "LYRICS" = false := by
      unfold hasNonEmptyFirst
      cases hf : firstVal c "LYRICS" with
      | none => rfl
      | some s => simp [hl s hf]
    rw [h1, h2]
    rfl
  · intro s hor hs
    have hb : (!hasNonEmptyFirst c "LYRICS" && !hasNonEmptyFirst c "COMMENT") = false := by
      cases hor with
      | inl h => simp [hasNonEmptyFirst_of_firstVal h hs]
      | inr h => simp [hasNonEmptyFirst_of_firstVal h hs]
    exact ⟨clean_others_changed hb, clean_others_result_get_comment c,
           clean_others_result_get_lyrics c⟩

/-- Witness for C4 amended on a tag with a populated `COMMENT` and no
`LYRICS` key. -/
theorem C4_witness :
    clean_others ⟨[("COMMENT", ["some text"])]⟩ =
      .ok (.ActionResult "" "Took out the string",
        (VorbisComment.set ⟨[("COMMENT", ["some text"])]⟩ "COMMENT" [""]).set "LYRICS" [""]) ∧
    ((VorbisComment.set ⟨[("COMMENT", ["some text"])]⟩ "COMMENT" [""]).set "LYRICS"
        [""]).get "COMMENT" = some [""] ∧
    ((VorbisComment.set ⟨[("COMMENT", ["some text"])]⟩ "COMMENT" [""]).set "LYRICS"
        [""]).get "LYRICS" = some [""] :=
  (C4_erase_semantics ⟨[("COMMENT", ["some text"])]⟩).2 "some text" (Or.inl rfl) (by decide)

/-- C10: whenever `COMMENT` or `LYRICS` holds a non-empty first value, the
erase operation overwrites BOTH fields with the single empty-string value —
including the field that was empty or absent, whose key is created with value
`[""]` — and neither field key is removed (both lookups succeed
afterwards). -/
theorem C10_clean_others_frame (c : VorbisComment) (s : String)
    (h : firstVal c "COMMENT" = some s ∨ firstVal c "LYRICS" = some s) (hs : s ≠ "") :
    clean_others c = .ok (.ActionResult "" "Took out the string",
      (c.set "COMMENT" [""]).set "LYRICS" [""]) ∧
    ((c.set "COMMENT" [""]).set "LYRICS" [""]).get "COMMENT" = some [""] ∧
    ((c.set "COMMENT" [""]).set "LYRICS" [""]).get "LYRICS" = some [""] := by
  have hb : (!hasNonEmptyFirst c "LYRICS" && !hasNonEmptyFirst c "COMMENT") = false := by
    cases h with
    | inl hh => simp [hasNonEmptyFirst_of_firstVal hh hs]
    | inr hh => simp [hasNonEmptyFirst_of_firstVal hh hs]
  exact ⟨clean_others_changed hb, clean_others_result_get_comment c,
         clean_others_result_get_lyrics c⟩

/-- Witness for C10 on a tag with a populated `LYRICS` and no `COMMENT` key:
the absent `COMMENT` key is created with value `[""]`. -/
theorem C10_witness :
    clean_others ⟨[("LYRICS", ["la la"])]⟩ =
      .ok (.ActionResult "" "Took out the string",
        (VorbisComment.set ⟨[("LYRICS", ["la la"])]⟩ "COMMENT" [""]).set "LYRICS" [""]) ∧
    ((VorbisComment.set ⟨[("LYRICS", ["la la"])]⟩ "COMMENT" [""]).set "LYRICS"
        [""]).get "COMMENT" = some [""] ∧
    ((VorbisComment.set ⟨[("LYRICS", ["la la"])]⟩ "COMMENT" [""]).set "LYRICS"
        [""]).get "LYRICS" = some [""] :=
  C10_clean_others_frame ⟨[("LYRICS", ["la la"])]⟩ "la la" (Or.inr rfl) (by decide)

/-- C9: for the three editors cited by the claim (tracknumber and title
normalization, erase), an `Unchanged` outcome leaves the in-memory tag
untouched, and an `ActionResult` outcome is emitted only together with an
actual mutation of the named field (for the erase operation, of `COMMENT` or
`LYRICS`), hence of the tag. -/
theorem C9_outcome_mutation (c c' : VorbisComment) (o n : String) :
    ((normalize_tracknumber c = .ok (.Unchanged, c') → c' = c) ∧
     (normalize_tracknumber c = .ok (.ActionResult o n, c') →
        c'.get "TRACKNUMBER" ≠ c.get "TRACKNUMBER" ∧ c' ≠ c)) ∧
    ((normalize_title c = .ok (.Unchanged, c') → c' = c) ∧
     (normalize_title c = .ok (.ActionResult o n, c') →
        c'.get "TITLE" ≠ c.get "TITLE" ∧ c' ≠ c)) ∧
    ((clean_others c = .ok (.Unchanged, c') → c' = c) ∧
     (clean_others c = .ok (.ActionResult o n, c') →
        (c'.get "COMMENT" ≠ c.get "COMMENT" ∨ c'.get "LYRICS" ≠ c.get "LYRICS") ∧
        c' ≠ c)) := by
  refine ⟨⟨?_, ?_⟩, ⟨?_, ?_⟩, ⟨?_, ?_⟩⟩
  · intro h
    unfold normalize_tracknumber at h
    cases hf : firstVal c "TRACKNUMBER" with
    | none => rw [hf] at h; simp at h
    | some old =>
      rw [hf] at h
      dsimp only at h
      cases hp : rustParseU32 old with
      | error m => rw [hp] at h; simp at h
      | ok k =>
        rw [hp] at h
        dsimp only at h
        by_cases he : old = natRepr k
        · rw [if_pos he] at h
          simp at h
          exact h.symm
        · rw [if_neg he] at h
          simp at h
  · intro h
    unfold normalize_tracknumber at h
    cases hf : firstVal c "TRACKNUMBER" with
    | none => rw [hf] at h; simp at h
    | some old =>
      rw [hf] at h
      dsimp only at h
      cases hp : rustParseU32 old with
      | error m => rw [hp] at h; simp at h
      | ok k =>
        rw [hp] at h
        dsimp only at h
        by_cases he : old = natRepr k
        · rw [if_pos he] at h
          simp at h
        · rw [if_neg he] at h
          simp at h
          obtain ⟨⟨ho, hn⟩, hc⟩ := h
          have hmain : c'.get "TRACKNUMBER" ≠ c.get "TRACKNUMBER" := by
            rw [← hc, get_set_self]
            intro hgc
            obtain ⟨vs, hvs, hhd⟩ := firstVal_get_some hf
            rw [hvs] at hgc
            have hveq : [natRepr k] = vs := by injection hgc
            rw [← hveq] at hhd
            simp at hhd
            exact he hhd.symm
          exact ⟨hmain, fun hcc => hmain (by rw [hcc])⟩
  · intro h
    unfold normalize_title at h
    cases hf : firstVal c "TITLE" with
    | none => rw [hf] at h; simp at h
    | some old =>
      rw [hf] at h
      dsimp only at h
      by_cases he : nfd old = nfd (titlecase old)
      · rw [if_pos he] at h
        simp at h
        exact h.symm
      · rw [if_neg he] at h
        simp at h
  · intro h
    unfold normalize_title at h
    cases hf : firstVal c "TITLE" with
    | none => rw [hf] at h; simp at h
    | some old =>
      rw [hf] at h
      dsimp only at h
      by_cases he : nfd old = nfd (titlecase old)
      · rw [if_pos he] at h
        simp at h
      · rw [if_neg he] at h
        simp at h
        obtain ⟨⟨ho, hn⟩, hc⟩ := h
        have hne : old ≠ titlecase old := fun heq => he (congrArg nfd heq)
        have hmain : c'.get "TITLE" ≠ c.get "TITLE" := by
          rw [← hc, get_set_self]
          intro hgc
          obtain ⟨vs, hvs, hhd⟩ := firstVal_get_some hf
          rw [hvs] at hgc
          have hveq : [titlecase old] = vs := by injection hgc
          rw [← hveq] at hhd
          simp at hhd
          exact hne hhd.symm
        exact ⟨hmain, fun hcc => hmain (by rw [hcc])⟩
  · intro h
    by_cases hb : (!hasNonEmptyFirst c "LYRICS" && !hasNonEmptyFirst c "COMMENT") = true
    · rw [clean_others_unchanged hb] at h
      simp at h
      exact h.symm
    · rw [clean_others_changed (Bool.eq_false_iff.mpr hb)] at h
      simp at h
  · intro h
    by_cases hb : (!hasNonEmptyFirst c "LYRICS" && !hasNonEmptyFirst c "COMMENT") = true
    · rw [clean_others_unchanged hb] at h
      simp at h
    · have hb' := Bool.eq_false_iff.mpr hb
      rw [clean_others_changed hb'] at h
      simp at h
      obtain ⟨⟨ho, hn⟩, hc⟩ := h
      have hor : hasNonEmptyFirst c "COMMENT" = true ∨ hasNonEmptyFirst c "LYRICS" = true := by
        cases hC : hasNonEmptyFirst c "COMMENT" <;>
          cases hL : hasNonEmptyFirst c "LYRICS" <;> simp_all
      cases hor with
      | inl hC =>
        obtain ⟨s, hfs, hs⟩ := hasNonEmptyFirst_true hC
        have hmain : c'.get "COMMENT" ≠ c.get "COMMENT" := by
          rw [← hc, clean_others_result_get_comment]
          intro hgc
          obtain ⟨vs, hvs, hhd⟩ := firstVal_get_some hfs
          rw [hvs] at hgc
          have hveq : [""] = vs := by injection hgc
          rw [← hveq] at hhd
          simp at hhd
          exact hs hhd.symm
        exact ⟨Or.inl hmain, fun hcc => hmain (by rw [hcc])⟩
      | inr hL =>
        obtain ⟨s, hfs, hs⟩ := hasNonEmptyFirst_true hL
        have hmain : c'.get "LYRICS" ≠ c.get "LYRICS" := by
          rw [← hc, clean_others_result_get_lyrics]
          intro hgc
          obtain ⟨vs, hvs, hhd⟩ := firstVal_get_some hfs
          rw [hvs] at hgc
          have hveq : [""] = vs := by injection hgc
          rw [← hveq] at hhd
          simp at hhd
          exact hs hhd.symm
        exact ⟨Or.inr hmain, fun hcc => hmain (by rw [hcc])⟩

/-- Witness for C9: on a tag with `TRACKNUMBER = ["07"]` the changed outcome
comes with a real mutation of the field. -/
theorem C9_witness :
    (VorbisComment.set ⟨[("TRACKNUMBER", ["07"])]⟩ "TRACKNUMBER"
        [natRepr 7]).get "TRACKNUMBER" ≠
      VorbisComment.get ⟨[("TRACKNUMBER", ["07"])]⟩ "TRACKNUMBER" ∧
    VorbisComment.set ⟨[("TRACKNUMBER", ["07"])]⟩ "TRACKNUMBER" [natRepr 7] ≠
      (⟨[("TRACKNUMBER", ["07"])]⟩ : VorbisComment) :=
  ((C9_outcome_mutation ⟨[("TRACKNUMBER", ["07"])]⟩
      (VorbisComment.set ⟨[("TRACKNUMBER", ["07"])]⟩ "TRACKNUMBER" [natRepr 7])
      "07" (natRepr 7)).1).2 (by decide)

/-- C2 counterexample: with commit on and only tracknumber normalization
enabled, a file whose `TRACKNUMBER` is already canonical produces an
`Unchanged` message, yet the save is still invoked (`saved = true`), because
the code sets `tag_modified` for every enabled operation regardless of its
outcome. -/
theorem C2_counterexample :
    worker ⟨true, false, "p", true, false, false, false, false, false, false, "", 0⟩
        ⟨["d"], "01 x.flac"⟩ (.ok ⟨[("TRACKNUMBER", ["7"])]⟩) true =
      .ok ⟨["Norm. num (unchanged): 01 x.flac"], ⟨[("TRACKNUMBER", ["7"])]⟩, true, none⟩ := by
  decide

/-- C2 amended: for every successful worker invocation, the tag save is
invoked iff commit mode is on and at least one non-rename operation was
ENABLED (all enabled operations having succeeded), regardless of whether any
operation actually mutated a field; in particular a preview run
(`run = false`) never saves. -/
theorem C2_save_iff (args : Args) (p : RPath) (tagRead : Except String VorbisComment)
    (fsOk : Bool) (r : WorkerOk) (h : worker args p tagRead fsOk = .ok r) :
    r.saved = (args.run && (args.normalize_tracknumber || args.normalize_title ||
      args.normalize_year || args.set_genre || args.clean_others || args.set_year)) := by
  unfold worker at h
  cases tagRead with
  | error e => simp at h
  | ok c0 =>
    dsimp only at h
    cases hs : stagedOps args p.fileName c0 with
    | error e => rw [hs] at h; simp at h
    | ok st =>
      obtain ⟨msgs, c1, m⟩ := st
      rw [hs] at h
      dsimp only at h
      have hm := stagedOps_ok_modified hs
      dsimp only at hm
      cases hren : args.rename with
      | false =>
        rw [hren] at h
        simp at h
        rw [← h]
        dsimp only
        rw [hm]
      | true =>
        rw [hren] at h
        rw [if_pos rfl] at h
        cases hrn : rename p c1 args.run fsOk with
        | err e => rw [hrn] at h; simp at h
        | panicked => rw [hrn] at h; simp at h
        | ok mm fse =>
          rw [hrn] at h
          simp at h
          rw [← h]
          dsimp only
          rw [hm]

/-- Witness for C2 amended at the counterexample input: the saved flag equals
commit AND some-non-rename-operation-enabled. -/
theorem C2_witness :
    WorkerOk.saved ⟨["Norm. num (unchanged): 01 x.flac"], ⟨[("TRACKNUMBER", ["7"])]⟩,
        true, none⟩ =
      (true && (true || false || false || false || false || false)) :=
  C2_save_iff ⟨true, false, "p", true, false, false, false, false, false, false, "", 0⟩
    ⟨["d"], "01 x.flac"⟩ (.ok ⟨[("TRACKNUMBER", ["7"])]⟩) true
    ⟨["Norm. num (unchanged): 01 x.flac"], ⟨[("TRACKNUMBER", ["7"])]⟩, true, none⟩
    (by decide)

/-- C1 counterexample: (a) with tracknumber and title normalization enabled
on a tag lacking `TRACKNUMBER`, the worker aborts the whole file with the
first operation's error and the title operation never runs — even though it
would have succeeded with a change; (b) with rename enabled in commit mode, a
failing filesystem rename panics the process instead of being reported as an
error. -/
theorem C1_counterexample :
    worker ⟨false, false, "p", true, true, false, false, false, false, false, "", 0⟩
        ⟨["d"], "a.flac"⟩ (.ok ⟨[("TITLE", ["the bends"])]⟩) true =
      .err (.app (.TagLoadError "load tracknumber")) ∧
    normalize_title ⟨[("TITLE", ["the bends"])]⟩ =
      .ok (.ActionResult "the bends" "The Bends", ⟨[("TITLE", ["The Bends"])]⟩) ∧
    worker ⟨true, false, "p", false, false, false, true, false, false, false, "", 0⟩
        ⟨["d"], "a.flac"⟩ (.ok ⟨[("TRACKNUMBER", ["3"]), ("TITLE", ["x"])]⟩) false =
      .panicked :=
  ⟨by decide, by decide, by decide⟩

/-- C1 amended: an operation failure inside a file aborts that file's
remaining operations and surfaces at the batch driver as the single
(per-file) error message for that entry, with sibling entries still
processed; a worker panic (from a failing `fs::rename(..).unwrap()` in commit
mode, third conjunct) aborts the whole run instead of being reported. -/
theorem C1_error_funnel (args : Args) (fsOk : Bool) (p : RPath)
    (tr : Except String VorbisComment)
    (rest : List (RPath × Except String VorbisComment)) :
    (∀ e, worker args p tr fsOk = .err e →
       run args fsOk ((p, tr) :: rest) = consBatch e.toDisplay (run args fsOk rest)) ∧
    (worker args p tr fsOk = .panicked → run args fsOk ((p, tr) :: rest) = .panicked) ∧
    (∀ cR track title ext, rustExtension p.fileName = some ext →
       firstVal cR "TRACKNUMBER" = some track → firstVal cR "TITLE" = some title →
       nfd p.fileName ≠ nfd (padLeft2 track ++ " - " ++ sanitize_title title ++ "." ++ ext) →
       rename p cR true false = .panicked) := by
  refine ⟨?_, ?_, ?_⟩
  · intro e h
    have hstep : run args fsOk ((p, tr) :: rest) =
        match worker args p tr fsOk with
        | .panicked => BatchOut.panicked
        | .ok r => consBatch (String.intercalate "\n" r.messages) (run args fsOk rest)
        | .err e => consBatch e.toDisplay (run args fsOk rest) := rfl
    rw [hstep, h]
  · intro h
    have hstep : run args fsOk ((p, tr) :: rest) =
        match worker args p tr fsOk with
        | .panicked => BatchOut.panicked
        | .ok r => consBatch (String.intercalate "\n" r.messages) (run args fsOk rest)
        | .err e => consBatch e.toDisplay (run args fsOk rest) := rfl
    rw [hstep, h]
  · intro cR track title ext he ht hi hx
    unfold rename
    rw [he, ht, hi]
    dsimp only
    rw [if_neg hx]
    rfl

/-- Witness for C1 amended: a missing `TRACKNUMBER` yields the per-file
message block and the run continues with the (empty) remainder. -/
theorem C1_witness :
    run ⟨false, false, "p", true, true, false, false, false, false, false, "", 0⟩ true
        [(⟨["d"], "a.flac"⟩, .ok ⟨[("TITLE", ["the bends"])]⟩)] =
      consBatch (DynError.app (Error.TagLoadError "load tracknumber")).toDisplay
        (run ⟨false, false, "p", true, true, false, false, false, false, false, "", 0⟩
          true []) :=
  (C1_error_funnel ⟨false, false, "p", true, true, false, false, false, false, false, "", 0⟩
      true ⟨["d"], "a.flac"⟩ (.ok ⟨[("TITLE", ["the bends"])]⟩) []).1
    (.app (.TagLoadError "load tracknumber")) (by decide)

/-- C8 counterexample: a batch with one unprocessable file (`TRACKNUMBER`
missing) and one valid file produces exactly one failure message and one
success block — but the failure message is only the error display text and
does not carry the file's name, contradicting the claim's "carrying its
name". -/
theorem C8_counterexample :
    run ⟨false, false, "p", true, false, false, false, false, false, false, "", 0⟩ true
        [(⟨["d"], "01 x.flac"⟩, .ok ⟨[("TITLE", ["t"])]⟩),
         (⟨["d"], "02 y.flac"⟩, .ok ⟨[("TRACKNUMBER", ["7"])]⟩)] =
      .ok ["Failed to load tag: load tracknumber", "Norm. num (unchanged): 02 y.flac"] ∧
    strContains "Failed to load tag: load tracknumber" "01 x.flac" = false :=
  ⟨by decide, by decide⟩

/-- C8 amended: every non-panicking batch run produces exactly one message
block per discovered entry, in entry order — the worker's joined messages on
success and the bare error display text (without the file name) on failure —
so no entry's result is dropped and one file's failure never skips
siblings. -/
theorem C8_one_block_per_file (args : Args) (fsOk : Bool)
    (entries : List (RPath × Except String VorbisComment)) (msgs : List String)
    (h : run args fsOk entries = .ok msgs) :
    msgs = entries.map (entryMsg args fsOk) ∧ msgs.length = entries.length := by
  have hm : msgs = entries.map (entryMsg args fsOk) := by
    induction entries generalizing msgs with
    | nil =>
      unfold run at h
      simp at h
      simp [h]
    | cons e rest ih =>
      obtain ⟨pp, tt⟩ := e
      unfold run at h
      cases hw : worker args pp tt fsOk with
      | panicked => rw [hw] at h; simp at h
      | ok r =>
        rw [hw] at h
        dsimp only at h
        cases hr : run args fsOk rest with
        | panicked => rw [hr] at h; simp [consBatch] at h
        | ok l =>
          rw [hr] at h
          simp [consBatch] at h
          have hl := ih l hr
          rw [← h, hl]
          simp [entryMsg, hw]
      | err w =>
        rw [hw] at h
        dsimp only at h
        cases hr : run args fsOk rest with
        | panicked => rw [hr] at h; simp [consBatch] at h
        | ok l =>
          rw [hr] at h
          simp [consBatch] at h
          have hl := ih l hr
          rw [← h, hl]
          simp [entryMsg, hw]
  exact ⟨hm, by rw [hm, List.length_map]⟩

/-- Witness for C8 amended on a concrete two-entry batch: one failure block
and one success block, one block per entry. -/
theorem C8_witness :
    (["Failed to load tag: load tracknumber", "Norm. num (unchanged): 02 y.flac"] =
       List.map (entryMsg ⟨false, false, "p", true, false, false, false, false, false,
           false, "", 0⟩ true)
         [((⟨["d"], "01 x.flac"⟩ : RPath), (.ok ⟨[("TITLE", ["t"])]⟩ :
             Except String VorbisComment)),
          (⟨["d"], "02 y.flac"⟩, .ok ⟨[("TRACKNUMBER", ["7"])]⟩)]) ∧
    (["Failed to load tag: load tracknumber",
        "Norm. num (unchanged): 02 y.flac"].length =
      [((⟨["d"], "01 x.flac"⟩ : RPath), (.ok ⟨[("TITLE", ["t"])]⟩ :
           Except String VorbisComment)),
       (⟨["d"], "02 y.flac"⟩, .ok ⟨[("TRACKNUMBER", ["7"])]⟩)].length) :=
  C8_one_block_per_file ⟨false, false, "p", true, false, false, false, false, false,
      false, "", 0⟩ true
    [(⟨["d"], "01 x.flac"⟩, .ok ⟨[("TITLE", ["t"])]⟩),
     (⟨["d"], "02 y.flac"⟩, .ok ⟨[("TRACKNUMBER", ["7"])]⟩)]
    ["Failed to load tag: load tracknumber", "Norm. num (unchanged): 02 y.flac"]
    (by decide)

end AudioLint
